import Mathlib

/-!
Verification of the Duragraph examples repository.

The two example scripts (`01-hello-world/main.py`, `02-chatbot/main.py`)
define graph nodes transforming a shared state record (a Python dict from
string keys to values), plus an in-memory, thread-keyed conversation store.
This file gives a shallow embedding of those definitions and of the
execution-engine behaviour the specification describes (the engine itself
is not part of the repository sources), and proves the specification's
claims about them.
-/

namespace Duragraph

/-- The universe of state-record values manipulated by the example nodes.
Per the sources' own type annotations, nodes read and write `str` values and
`list[dict[str, str]]` message lists (`ConversationStore._store:
dict[str, list[dict[str, str]]]`, `add_message(..., role: str, content: str)`).
`vstr` is a Python `str`; `vmsgs` is a list of string-keyed, string-valued
dicts (a message dict is represented as an association list so that a dict
missing a key, e.g. one without `"role"`, is expressible); `vobj` models any
other Python value, carrying its `str()` rendering and its truthiness — such
a value is outside the JSON-like fragment the spec calls serializable. -/
inductive Val where
  | vstr : String → Val
  | vmsgs : List (List (String × String)) → Val
  | vobj : String → Bool → Val
deriving DecidableEq

/-- Python truthiness of a value (`if not user_input: ...`): a `str` is truthy
iff non-empty, a list is truthy iff non-empty; `vobj` carries its own. -/
def Val.truthy : Val → Bool
  | .vstr s => !(s == "")
  | .vmsgs ms => !ms.isEmpty
  | .vobj _ b => b

/-- Spec §3: the state must remain serializable. A `vstr` or `vmsgs` value is
within the serializable (JSON-like) fragment; `vobj` stands for a value
outside it. -/
def Val.serializable : Val → Bool
  | .vobj _ _ => false
  | _ => true

/-- Extracts a Python `str`. Used where the sources' annotations require a
`str` (store message contents); a non-`str` value there is outside this
embedding and is mapped to `none`. -/
def Val.asString : Val → Option String
  | .vstr s => some s
  | _ => none

/-- Python `repr` of one `{role: ..., content: ...}`-style string dict. -/
def msgDictRepr (d : List (String × String)) : String :=
  "\x7b" ++ ", ".intercalate
    (d.map (fun kv => "\x27" ++ kv.1 ++ "\x27: \x27" ++ kv.2 ++ "\x27")) ++ "\x7d"

/-- Python `str()` of a value, as interpolated by an f-string such as
`f"Hello, \x7bname\x7d!"`. -/
def Val.pyStr : Val → String
  | .vstr s => s
  | .vmsgs ms => "[" ++ ", ".intercalate (ms.map msgDictRepr) ++ "]"
  | .vobj s _ => s

/-- A State Record: a Python dict from string keys to values, represented as
an insertion-ordered association list (first occurrence is authoritative). -/
def State := List (String × Val)

instance : DecidableEq State := inferInstanceAs (DecidableEq (List (String × Val)))

/-- Python `state.get(key)` / `state[key]` presence: the value at `key`. -/
def State.get? : State → String → Option Val
  | [], _ => none
  | (k, v) :: rest, key => if k = key then some v else State.get? rest key

/-- Python `state[key] = v`: replaces the value in place if the key is
present, otherwise appends the binding at the end (dict insertion order). -/
def State.set : State → String → Val → State
  | [], key, v => [(key, v)]
  | (k, w) :: rest, key, v =>
      if k = key then (k, v) :: rest else (k, w) :: State.set rest key v

/-- Python `state.get(key, default)`. -/
def State.getD (s : State) (key : String) (d : Val) : Val :=
  (s.get? key).getD d

/-- All values of the state record are serializable (spec §3 invariant). -/
def serializableState : State → Bool
  | [] => true
  | (_, v) :: rest => v.serializable && serializableState rest

/-- The dict literal `\x7b"role": role, "content": content\x7d` built by the
chatbot nodes and by `ConversationStore.add_message`. -/
def msgDict (role content : String) : List (String × String) :=
  [("role", role), ("content", content)]

/-- Lookup `d[key]` in a message dict; `none` is Python's `KeyError`. -/
def dictGet? (d : List (String × String)) (key : String) : Option String :=
  (d.find? (fun kv => kv.1 == key)).map (fun kv => kv.2)

/-- Python `l[-n:]`: the last `n` elements (the whole list when shorter). -/
def lastN {α : Type} (n : Nat) (l : List α) : List α :=
  l.drop (l.length - n)

/-- Effectful comprehension over `Option`: evaluates `f` on the elements in
order, failing (Python: raising) as soon as one element fails. -/
def mapOpt {α β : Type} (f : α → Option β) : List α → Option (List β)
  | [] => some []
  | x :: xs => do
      let y ← f x
      let ys ← mapOpt f xs
      pure (y :: ys)

/-- Does the character list start with the given pattern? -/
def startsWithChars : List Char → List Char → Bool
  | _, [] => true
  | [], _ :: _ => false
  | h :: t, nh :: nt => h == nh && startsWithChars t nt

/-- Scan for the pattern at every position of the haystack. -/
def containsChars (needle : List Char) : List Char → Bool
  | [] => startsWithChars [] needle
  | h :: t => startsWithChars (h :: t) needle || containsChars needle t

/-- Python substring test `needle in hay` on strings. -/
def strContains (hay needle : String) : Bool :=
  containsChars needle.data hay.data

/-- Python `str.lower()`, character-wise (the examples' strings are ASCII,
where lowercasing is exactly per-character). -/
def strLower (s : String) : String :=
  String.mk (s.data.map Char.toLower)

/-! ### Hello-world graph nodes (`01-hello-world/main.py`) -/

/-- Embeds `HelloWorld.greet`: `name = state.get("name", "World")`;
`state["greeting"] = f"Hello, \x7bname\x7d!"`; returns the state. -/
def greet (state : State) : State :=
  let name := state.getD "name" (Val.vstr "World")
  state.set "greeting" (Val.vstr ("Hello, " ++ name.pyStr ++ "!"))

/-- Embeds `HelloWorld.farewell`:
`state["farewell"] = "Goodbye! Thanks for using DuraGraph."`. -/
def farewell (state : State) : State :=
  state.set "farewell" (Val.vstr "Goodbye! Thanks for using DuraGraph.")

/-! ### Conversation store (`02-chatbot/main.py`, lines 21-38) -/

/-- Embeds `ConversationStore`: a `defaultdict(list)` from thread id to the
list of message dicts stored for that thread. Python keys the dict by any
(hashable) value, so the model keys by `Val`; a missing key reads as `[]`
(`defaultdict`), which also makes the observationally-silent insertion that
`defaultdict` performs on a read invisible, as it is in Python. -/
def ConversationStore := Val → List (List (String × String))

/-- Embeds `ConversationStore.__init__`: the fresh, empty store. -/
def ConversationStore.new : ConversationStore := fun _ => []

/-- Embeds `ConversationStore.get_messages`: `self._store[thread_id].copy()`
(the copy is value semantics, which the pure model has for free). -/
def ConversationStore.get_messages (s : ConversationStore) (thread_id : Val) :
    List (List (String × String)) :=
  s thread_id

/-- Embeds `ConversationStore.add_message`:
`self._store[thread_id].append(\x7b"role": role, "content": content\x7d)`. -/
def ConversationStore.add_message (s : ConversationStore) (thread_id : Val)
    (role content : String) : ConversationStore :=
  fun t => if t = thread_id then s t ++ [msgDict role content] else s t

/-- Embeds `ConversationStore.clear`: deletes the thread's history (a deleted
key and an absent key both read back as `[]`). -/
def ConversationStore.clear (s : ConversationStore) (thread_id : Val) :
    ConversationStore :=
  fun t => if t = thread_id then [] else s t

/-- A sequence of `add_message` calls for one thread, applied in order. -/
def ConversationStore.addAll (s : ConversationStore) (thread_id : Val) :
    List (String × String) → ConversationStore
  | [] => s
  | (role, content) :: rest =>
      ConversationStore.addAll (s.add_message thread_id role content) thread_id rest

/-! ### Chatbot graph nodes (`02-chatbot/main.py`, lines 45-131) -/

/-- Embeds `ChatbotWithMemory.load_history`: reads the thread's history from
the global store into `state["messages"]`. The ambient global
`conversation_store` is passed explicitly. -/
def load_history (store : ConversationStore) (state : State) : State :=
  let thread_id := state.getD "thread_id" (Val.vstr "default")
  state.set "messages" (Val.vmsgs (store.get_messages thread_id))

/-- Embeds `ChatbotWithMemory.add_user_message`. It never touches the
conversation store (it only reads `state`), hence no store parameter. The
node returns the state unchanged on falsy input; otherwise it appends the
user message dict to `state["messages"]`, raising (`none`) when that key is
absent or not a message list. A truthy non-`str` input is outside this
embedding (message contents are `str` per the sources' annotations) and is
likewise mapped to `none`. -/
def add_user_message (state : State) : Option State :=
  let user_inputV := state.getD "input" (Val.vstr "")
  let _thread_id := state.getD "thread_id" (Val.vstr "default")
  if user_inputV.truthy then
    match user_inputV.asString, state.get? "messages" with
    | some user_input, some (Val.vmsgs ms) =>
        some (state.set "messages" (Val.vmsgs (ms ++ [msgDict "user" user_input])))
    | _, _ => none
  else some state

/-- The rule-based branch block of `ChatbotWithMemory.generate_response`
(lines 93-105): picks the demo response from the lowercased last user
message; the fallback branch indexes `messages[-1]` again (raising, `none`,
on an empty list or a missing `"content"` key). -/
def responseChoice (ms : List (List (String × String)))
    (user_message : String) : Option String :=
  if strContains user_message "hello" || strContains user_message "hi" then
    some "Hello! How can I help you today?"
  else if strContains user_message "how are you" then
    some "I\x27m doing great, thank you for asking! How can I assist you?"
  else if strContains user_message "bye" || strContains user_message "goodbye" then
    some "Goodbye! Feel free to come back anytime."
  else if strContains user_message "name" then
    some "I\x27m DuraGraph Bot, your helpful assistant!"
  else do
    let msg_count := ms.length
    let last ← ms.getLast?
    let c ← dictGet? last "content"
    pure ("I understand you said: \x27" ++ c ++ "\x27. This is message #"
      ++ toString msg_count ++ " in our conversation. How can I help further?")

/-- The state-independent core of `ChatbotWithMemory.generate_response`
(lines 81-105 read only `messages`): the `context` string is built first,
evaluating `msg["role"]` and `msg["content"]` for each of the last five
messages (a missing key raises, i.e. `none`), then `user_message` lowercases
the last message's content when the list is non-empty, then `responseChoice`
picks the response. -/
def responseFor (ms : List (List (String × String))) : Option String := do
  let ctxParts ← mapOpt
    (fun msg => do
      let r ← dictGet? msg "role"
      let c ← dictGet? msg "content"
      pure (r ++ ": " ++ c))
    (lastN 5 ms)
  let _context := "\n".intercalate ctxParts
  let user_message ←
    if ms.isEmpty then some ""
    else (ms.getLast?.bind (fun m => dictGet? m "content")).map strLower
  responseChoice ms user_message

/-- Embeds `ChatbotWithMemory.generate_response`: computes `responseFor` on
`messages = state.get("messages", [])` and assigns the outcome to
`state["response"]`. A non-list `"messages"` value raises in Python (string
slicing aside, every path indexes a dict) and is `none` here. -/
def generate_response (state : State) : Option State :=
  match state.getD "messages" (Val.vmsgs []) with
  | Val.vmsgs ms =>
      (responseFor ms).map (fun response => state.set "response" (Val.vstr response))
  | _ => none

/-- Embeds `ChatbotWithMemory.save_response`. Returns the state and the
(possibly updated) global store. On falsy response both are unchanged;
otherwise the assistant message is appended to `state["messages"]` (raising,
`none`, when that key is absent or not a message list), then the user input
(`state.get("input", "")`) and the response are persisted to the store under
the state's thread id. Truthy non-`str` response or non-`str` input values
are outside this embedding (store contents are `str` per the sources'
annotations) and are mapped to `none`. -/
def save_response (store : ConversationStore) (state : State) :
    Option (State × ConversationStore) :=
  let thread_id := state.getD "thread_id" (Val.vstr "default")
  let responseV := state.getD "response" (Val.vstr "")
  if responseV.truthy then
    match responseV.asString, state.get? "messages" with
    | some response, some (Val.vmsgs ms) =>
        let state' := state.set "messages" (Val.vmsgs (ms ++ [msgDict "assistant" response]))
        match (state.getD "input" (Val.vstr "")).asString with
        | some input =>
            let store' := store.add_message thread_id "user" input
            let store'' := store'.add_message thread_id "assistant" response
            some (state', store'')
        | none => none
    | _, _ => none
  else some (state, store)

/-! ### Execution engine with Run Ledger (spec §3, §4.2, §4.4)

The engine is not part of this repository's sources (the examples import it
from the absent `duragraph` package), so it is modelled from the spec. -/

/-- Modelled from the spec: the outcome field of a Run Ledger Entry
(spec §3); the engine here records `success` or `failure`. -/
inductive Outcome where
  | success
  | failure
deriving DecidableEq

/-- Modelled from the spec: a Run Ledger Entry
`(run_id, node_name, sequence_index, resulting_state_snapshot, timestamp,
outcome)` (spec §3). The ledger value passed to `execute` below is the single
run's partition (entries for one `run_id`, so the `run_id` field is left
implicit), and the wall-clock `timestamp` is not modelled. -/
structure LedgerEntry where
  node_name : String
  sequence_index : Nat
  snapshot : State
  outcome : Outcome
deriving DecidableEq

/-- Modelled from the spec: a Node behaviour `apply(state) -> state` that may
fail (spec §3); `none` is a node failure. -/
def NodeFn := State → Option State

/-- Modelled from the spec: `latest_success(run_id) -> entry | None`
(spec §4.4) — the entry with the highest `sequence_index` whose outcome is
`success`, if any. -/
def latest_success (ledger : List LedgerEntry) : Option LedgerEntry :=
  ledger.foldl
    (fun best e =>
      match e.outcome with
      | Outcome.success =>
          match best with
          | none => some e
          | some b => if b.sequence_index ≤ e.sequence_index then some e else some b
      | Outcome.failure => best)
    none

/-- Modelled from the spec: the engine's main loop over the remaining Nodes
of a linear plan (spec §4.2): invoke the Node on the current state; on
success append a `success` entry with the returned snapshot and advance; on
failure append a `failure` entry (holding the state the node was invoked on)
and stop. Returns the final state (`none` if the run failed) and the ledger. -/
def execFrom : List (String × NodeFn) → Nat → State → List LedgerEntry →
    Option State × List LedgerEntry
  | [], _, state, ledger => (some state, ledger)
  | (name, f) :: rest, idx, state, ledger =>
      match f state with
      | some state' =>
          execFrom rest (idx + 1) state' (ledger ++ [⟨name, idx, state', Outcome.success⟩])
      | none => (none, ledger ++ [⟨name, idx, state, Outcome.failure⟩])

/-- Modelled from the spec: `execute(graph, run)` for a linear plan
(spec §4.2) — determine the resume point by querying the Run Ledger for the
highest `sequence_index` with outcome `success`; if none, start at the
plan's first Node with the run's initial State Record; otherwise resume at
the following plan position with the snapshot from that ledger entry. -/
def execute (plan : List (String × NodeFn)) (ledger : List LedgerEntry)
    (init : State) : Option State × List LedgerEntry :=
  match latest_success ledger with
  | none => execFrom plan 0 init ledger
  | some e => execFrom (plan.drop (e.sequence_index + 1)) (e.sequence_index + 1)
      e.snapshot ledger

/-! ### Graph construction and validation (spec §4.1)

`build` is likewise absent from the sources and modelled from the spec. -/

/-- An edge of a dependency-DAG execution plan: the plan declares `a → b`. -/
def Edge (plan : List (String × String)) (a b : String) : Prop :=
  (a, b) ∈ plan

instance {plan : List (String × String)} {a b : String} :
    Decidable (Edge plan a b) :=
  inferInstanceAs (Decidable ((a, b) ∈ plan))

/-- A (nonempty) cycle of the plan: successive elements are joined by plan
edges, and an edge closes the loop from the last element back to the first. -/
def IsCycle (plan : List (String × String)) : List String → Prop
  | [] => False
  | v :: rest => List.Chain (Edge plan) v (rest ++ [v])

/-- The plan contains a cycle. -/
def HasCycle (plan : List (String × String)) : Prop :=
  ∃ c, IsCycle plan c

/-- The plan successors of a node. -/
def successors (plan : List (String × String)) (a : String) : List String :=
  (plan.filter (fun e => e.1 == a)).map (fun e => e.2)

/-- Modelled from the spec: bounded search for a plan path from `a` to `b`
of length between 1 and `fuel`, returning the path (the visited nodes after
`a`, ending with `b`). -/
def findPath (plan : List (String × String)) :
    Nat → String → String → Option (List String)
  | 0, _, _ => none
  | fuel + 1, a, b =>
      (successors plan a).findSome?
        (fun c =>
          if c = b then some [c]
          else (findPath plan fuel c b).map (fun p => c :: p))

/-- Modelled from the spec: search for an offending cycle of the plan — for
each declared node, a path of length at most `nodes.length` from it back to
itself (any cycle shortens to one of at most that length). -/
def findCycle (nodes : List String) (plan : List (String × String)) :
    Option (List String) :=
  nodes.findSome?
    (fun n => (findPath plan nodes.length n n).map (fun p => n :: p.dropLast))

/-- All plan references resolve to declared node names (spec §4.1). -/
def planRefsOk (nodes : List String) (plan : List (String × String)) : Bool :=
  plan.all (fun e => nodes.contains e.1 && nodes.contains e.2)

/-- Modelled from the spec: the error taxonomy of `build` (spec §4.1, §7):
`ValidationError` for bad graph construction, with `CycleError` as the
cyclic-plan subtype, naming the offending cycle. -/
inductive BuildError where
  | validationError : String → BuildError
  | cycleError : List String → BuildError
deriving DecidableEq

/-- Modelled from the spec: a Graph — a named, immutable collection of node
names plus an execution plan (spec §3); node behaviours are attached at
execution time (`NodeFn`), which the structural validation of `build` does
not inspect. -/
structure Graph where
  name : String
  nodes : List String
  plan : List (String × String)
deriving DecidableEq

/-- Modelled from the spec: `build(name, nodes, plan) -> Graph |
ValidationError` (spec §4.1). Validates, in the spec's order: all plan
references resolve to declared nodes; no duplicate node names; the plan
graph is acyclic (rejecting with `CycleError` naming the offending cycle);
at least one node exists. -/
def build (name : String) (nodes : List String)
    (plan : List (String × String)) : Except BuildError Graph :=
  if planRefsOk nodes plan then
    if nodes.Nodup then
      match findCycle nodes plan with
      | some c => Except.error (BuildError.cycleError c)
      | none =>
          if nodes.isEmpty then
            Except.error (BuildError.validationError "empty graph")
          else Except.ok ⟨name, nodes, plan⟩
    else Except.error (BuildError.validationError "duplicate node names")
  else Except.error (BuildError.validationError "unresolved plan reference")

/-! ### Helper lemmas: state records -/

/-- Reading back after a dict assignment. -/
theorem get?_set (s : State) (key : String) (v : Val) (key' : String) :
    (s.set key v).get? key' = if key' = key then some v else s.get? key' := by
  induction s with
  | nil =>
      simp only [State.set, State.get?]
      by_cases h : key = key'
      · rw [if_pos h, if_pos h.symm]
      · rw [if_neg h, if_neg (fun hh => h hh.symm)]
  | cons kv rest ih =>
      obtain ⟨k, w⟩ := kv
      by_cases hk : k = key
      · subst hk
        simp only [State.set, if_pos rfl, State.get?]
        by_cases h : k = key'
        · rw [if_pos h, if_pos h.symm]
        · rw [if_neg h, if_neg (fun hh => h hh.symm), if_neg h]
      · simp only [State.set, if_neg hk, State.get?]
        by_cases h : k = key'
        · rw [if_pos h, if_neg (fun hh => hk (h.trans hh)), if_pos h]
        · simp only [if_neg h, ih]

/-- A dict assignment never drops a present key. -/
theorem isSome_get?_set {s : State} {k : String} (key : String) (v : Val)
    (h : (s.get? k).isSome) : ((s.set key v).get? k).isSome := by
  rw [get?_set]
  by_cases hk : k = key <;> simp [hk, h]

/-- Assigning a serializable value keeps the state serializable. -/
theorem serializableState_set {s : State} {key : String} {v : Val}
    (hs : serializableState s = true) (hv : v.serializable = true) :
    serializableState (s.set key v) = true := by
  induction s with
  | nil => simp [State.set, serializableState, hv]
  | cons kv rest ih =>
      obtain ⟨k, w⟩ := kv
      simp only [serializableState, Bool.and_eq_true] at hs
      by_cases hk : k = key
      · simp [State.set, hk, serializableState, hv, hs.2]
      · simp [State.set, hk, serializableState, hs.1, ih hs.2]

/-! ### Helper lemmas: conversation store -/

/-- Reading the thread just appended to. -/
theorem get_messages_add_message_same (s : ConversationStore) (t : Val)
    (role content : String) :
    (s.add_message t role content).get_messages t
      = s.get_messages t ++ [msgDict role content] := by
  simp [ConversationStore.add_message, ConversationStore.get_messages]

/-- Appending to one thread leaves every other thread's history unchanged. -/
theorem get_messages_add_message_other {t t' : Val} (s : ConversationStore)
    (role content : String) (h : t' ≠ t) :
    (s.add_message t role content).get_messages t' = s.get_messages t' := by
  simp [ConversationStore.add_message, ConversationStore.get_messages, h]

/-- A batch of appends to one thread extends its history in order. -/
theorem get_messages_addAll (s : ConversationStore) (t : Val) :
    ∀ adds : List (String × String),
      (s.addAll t adds).get_messages t
        = s.get_messages t ++ adds.map (fun rc => msgDict rc.1 rc.2) := by
  intro adds
  induction adds generalizing s with
  | nil => simp [ConversationStore.addAll]
  | cons rc rest ih =>
      obtain ⟨role, content⟩ := rc
      simp [ConversationStore.addAll, ih, get_messages_add_message_same]

/-! ### Helper lemmas: Option-valued searches and strings -/

/-- If some element of the list succeeds, `findSome?` succeeds. -/
theorem findSome?_isSome {α β : Type} {f : α → Option β} {l : List α} {x : α}
    (hx : x ∈ l) (hfx : (f x).isSome) : (l.findSome? f).isSome := by
  induction l with
  | nil => cases hx
  | cons a t ih =>
      cases hfa : f a with
      | some b => simp [List.findSome?_cons, hfa]
      | none =>
          rcases List.mem_cons.mp hx with rfl | hx'
          · rw [hfa] at hfx; cases hfx
          · simpa [List.findSome?_cons, hfa] using ih hx'

/-- Inversion for a successful `findSome?`. -/
theorem exists_of_findSome? {α β : Type} {f : α → Option β} {l : List α} {v : β}
    (h : l.findSome? f = some v) : ∃ x ∈ l, f x = some v := by
  induction l with
  | nil => simp [List.findSome?_nil] at h
  | cons a t ih =>
      rw [List.findSome?_cons] at h
      cases hfa : f a with
      | some b =>
          simp only [hfa] at h
          exact ⟨a, List.mem_cons_self a t, hfa.trans h⟩
      | none =>
          simp only [hfa] at h
          obtain ⟨x, hx, hfx⟩ := ih h
          exact ⟨x, List.mem_cons_of_mem a hx, hfx⟩

/-- If every element succeeds, the effectful map succeeds. -/
theorem mapOpt_isSome {α β : Type} {f : α → Option β} {l : List α}
    (h : ∀ x ∈ l, (f x).isSome) : (mapOpt f l).isSome := by
  induction l with
  | nil => simp [mapOpt]
  | cons a t ih =>
      obtain ⟨b, hb⟩ := Option.isSome_iff_exists.mp (h a (List.mem_cons_self a t))
      obtain ⟨bs, hbs⟩ :=
        Option.isSome_iff_exists.mp (ih (fun x hx => h x (List.mem_cons_of_mem a hx)))
      simp [mapOpt, hb, hbs]

/-- Appending on the right cannot empty a non-empty string. -/
theorem append_ne_empty {a : String} (b : String) (h : a ≠ "") :
    a ++ b ≠ "" := by
  obtain ⟨da⟩ := a
  obtain ⟨db⟩ := b
  intro hc
  apply h
  have hd : da ++ db = [] := by
    simpa using congrArg String.data hc
  have hda : da = [] := (List.append_eq_nil.mp hd).1
  rw [hda]

/-! ### Helper lemmas: plan cycles and the bounded cycle search -/

/-- Successor lists enumerate exactly the plan edges. -/
theorem mem_successors {plan : List (String × String)} {a b : String} :
    b ∈ successors plan a ↔ Edge plan a b := by
  simp only [successors, List.mem_map, List.mem_filter, Edge]
  constructor
  · rintro ⟨e, ⟨hmem, hfst⟩, hsnd⟩
    have h1 : e.1 = a := by simpa using hfst
    have he : e = (a, b) := by cases e; simp_all
    rwa [he] at hmem
  · intro hmem
    exact ⟨(a, b), ⟨hmem, by simp⟩, rfl⟩

/-- A found path is a genuine edge chain from `a` ending at `b`. -/
theorem findPath_sound {plan : List (String × String)} :
    ∀ (fuel : Nat) (a b : String) (p : List String),
      findPath plan fuel a b = some p →
      List.Chain (Edge plan) a p ∧ ∃ q, p = q ++ [b] := by
  intro fuel
  induction fuel with
  | zero => intro a b p h; simp [findPath] at h
  | succ fuel ih =>
      intro a b p h
      simp only [findPath] at h
      obtain ⟨c, hc_mem, hc⟩ := exists_of_findSome? h
      by_cases hcb : c = b
      · rw [if_pos hcb] at hc
        injection hc with hc'
        subst hc'
        subst hcb
        exact ⟨List.Chain.cons (mem_successors.mp hc_mem) List.Chain.nil, [], rfl⟩
      · rw [if_neg hcb] at hc
        obtain ⟨p', hp', rfl⟩ :
            ∃ p', findPath plan fuel c b = some p' ∧ p = c :: p' := by
          cases hfp : findPath plan fuel c b with
          | none => rw [hfp] at hc; cases hc
          | some p' =>
              rw [hfp] at hc
              exact ⟨p', rfl, (Option.some.inj hc).symm⟩
        obtain ⟨hchain, q, hq⟩ := ih c b p' hp'
        exact ⟨List.Chain.cons (mem_successors.mp hc_mem) hchain, c :: q, by simp [hq]⟩

/-- The bounded search finds a path whenever a short enough one exists. -/
theorem findPath_complete {plan : List (String × String)} :
    ∀ (fuel : Nat) (a b : String) (q : List String),
      List.Chain (Edge plan) a (q ++ [b]) → (q ++ [b]).length ≤ fuel →
      (findPath plan fuel a b).isSome := by
  intro fuel
  induction fuel with
  | zero => intro a b q hch hlen; simp at hlen
  | succ fuel ih =>
      intro a b q hch hlen
      cases q with
      | nil =>
          rw [List.nil_append] at hch
          have hab : Edge plan a b := by
            cases hch with
            | cons h _ => exact h
          simp only [findPath]
          exact findSome?_isSome (mem_successors.mpr hab) (by simp)
      | cons c q' =>
          have hch' : Edge plan a c ∧ List.Chain (Edge plan) c (q' ++ [b]) := by
            cases hch with
            | cons h t => exact ⟨h, t⟩
          simp only [findPath]
          apply findSome?_isSome (mem_successors.mpr hch'.1)
          by_cases hcb : c = b
          · simp [hcb]
          · rw [if_neg hcb]
            have hrec : (findPath plan fuel c b).isSome := by
              apply ih c b q' hch'.2
              simp only [List.cons_append, List.length_cons] at hlen
              omega
            obtain ⟨p', hp'⟩ := Option.isSome_iff_exists.mp hrec
            simp [hp']

/-- Every element of an edge chain has an incoming edge. -/
theorem chain_exists_source {α : Type} {R : α → α → Prop} :
    ∀ {a : α} {l : List α}, List.Chain R a l → ∀ x ∈ l, ∃ w, R w x := by
  intro a l
  induction l generalizing a with
  | nil => intro _ x hx; cases hx
  | cons b t ih =>
      intro hch x hx
      cases hch with
      | cons hab ht =>
          rcases List.mem_cons.mp hx with rfl | hx'
          · exact ⟨a, hab⟩
          · exact ih ht x hx'

/-- Pigeonhole: a list longer than the duplicate-free pool it draws from
repeats some element, exhibited as an explicit split. -/
theorem exists_dup_split {α : Type} [DecidableEq α] :
    ∀ (p pool : List α), (∀ x ∈ p, x ∈ pool) → pool.Nodup →
      pool.length < p.length →
      ∃ x p₁ p₂ p₃, p = p₁ ++ x :: p₂ ++ x :: p₃ := by
  intro p
  induction p with
  | nil =>
      intro pool _ _ hlen
      exact absurd hlen (Nat.not_lt_zero _)
  | cons x p' ih =>
      intro pool hsub hnd hlen
      by_cases hx : x ∈ p'
      · obtain ⟨s, t, rfl⟩ := List.append_of_mem hx
        exact ⟨x, [], s, t, by simp⟩
      · have hx_pool : x ∈ pool := hsub x (List.mem_cons_self x p')
        have hsub' : ∀ y ∈ p', y ∈ pool.erase x := by
          intro y hy
          have hyx : y ≠ x := by
            intro h
            rw [h] at hy
            exact hx hy
          exact (List.mem_erase_of_ne hyx).mpr
            (hsub y (List.mem_cons_of_mem x hy))
        have hlen' : (pool.erase x).length < p'.length := by
          rw [List.length_erase_of_mem hx_pool]
          have hpos : 0 < pool.length := List.length_pos_of_mem hx_pool
          simp only [List.length_cons] at hlen
          omega
        obtain ⟨y, p₁, p₂, p₃, rfl⟩ := ih (pool.erase x) hsub' (hnd.erase x) hlen'
        exact ⟨y, x :: p₁, p₂, p₃, by simp⟩

/-- Any cycle over a duplicate-free node pool shortens to one of length at
most the number of nodes. -/
theorem cycle_shorten {plan : List (String × String)} {nodes : List String}
    (hnd : nodes.Nodup) :
    ∀ (k : Nat) (c : List String), c.length ≤ k → IsCycle plan c →
      (∀ x ∈ c, x ∈ nodes) →
      ∃ c', IsCycle plan c' ∧ c'.length ≤ nodes.length := by
  intro k
  induction k with
  | zero =>
      intro c hlen hcyc _
      have hc : c = [] := List.eq_nil_of_length_eq_zero (Nat.le_zero.mp hlen)
      rw [hc] at hcyc
      simp [IsCycle] at hcyc
  | succ k ih =>
      intro c hlen hcyc hmem
      by_cases hshort : c.length ≤ nodes.length
      · exact ⟨c, hcyc, hshort⟩
      · push_neg at hshort
        cases hc0 : c with
        | nil => rw [hc0] at hcyc; simp [IsCycle] at hcyc
        | cons v rest =>
            rw [hc0] at hcyc hmem hshort hlen
            obtain ⟨x, p₁, p₂, p₃, hc_eq⟩ :=
              exists_dup_split (v :: rest) nodes hmem hnd hshort
            have hch' : List.Chain' (Edge plan) ((v :: rest) ++ [v]) := hcyc
            have hinf : (x :: p₂ ++ [x]) <:+: ((v :: rest) ++ [v]) := by
              refine ⟨p₁, p₃ ++ [v], ?_⟩
              rw [hc_eq]
              simp
            have hch'' : List.Chain' (Edge plan) (x :: p₂ ++ [x]) :=
              List.Chain'.infix hch' hinf
            have hcyc'' : IsCycle plan (x :: p₂) := hch''
            have hlen'' : (x :: p₂).length ≤ k := by
              have := congrArg List.length hc_eq
              simp only [List.length_cons, List.length_append] at this hlen ⊢
              omega
            have hmem'' : ∀ y ∈ x :: p₂, y ∈ nodes := by
              intro y hy
              apply hmem
              rw [hc_eq]
              rcases List.mem_cons.mp hy with rfl | hy'
              · simp
              · simp [hy']
            exact ih (x :: p₂) hlen'' hcyc'' hmem''

/-- A cycle found by the search is a genuine plan cycle. -/
theorem findCycle_sound {nodes : List String} {plan : List (String × String)}
    {c : List String} (h : findCycle nodes plan = some c) : IsCycle plan c := by
  obtain ⟨n, hn_mem, hn⟩ := exists_of_findSome? h
  cases hfp : findPath plan nodes.length n n with
  | none => rw [hfp] at hn; cases hn
  | some p =>
      rw [hfp] at hn
      obtain rfl : c = n :: p.dropLast := by simpa using hn.symm
      obtain ⟨hchain, q, rfl⟩ := findPath_sound nodes.length n n p hfp
      simpa [IsCycle, List.dropLast_concat] using hchain

/-- When the plan has a cycle (and its references resolve among the
duplicate-free declared nodes), the search finds one. -/
theorem findCycle_isSome {nodes : List String} {plan : List (String × String)}
    (href : ∀ e ∈ plan, e.1 ∈ nodes ∧ e.2 ∈ nodes) (hnd : nodes.Nodup)
    (hcyc : HasCycle plan) : (findCycle nodes plan).isSome := by
  obtain ⟨c0, hc0⟩ := hcyc
  have hmem0 : ∀ x ∈ c0, x ∈ nodes := by
    cases c0 with
    | nil => simp [IsCycle] at hc0
    | cons v rest =>
        intro x hx
        have hchain : List.Chain (Edge plan) v (rest ++ [v]) := hc0
        have hx' : x ∈ rest ++ [v] := by
          rcases List.mem_cons.mp hx with rfl | hx'
          · simp
          · simp [hx']
        obtain ⟨w, hw⟩ := chain_exists_source hchain x hx'
        exact (href _ hw).2
  obtain ⟨c', hc', hlen'⟩ := cycle_shorten hnd c0.length c0 le_rfl hc0 hmem0
  cases c' with
  | nil => simp [IsCycle] at hc'
  | cons v rest =>
      have hchain : List.Chain (Edge plan) v (rest ++ [v]) := hc'
      have hv : v ∈ nodes := by
        obtain ⟨w, hw⟩ := chain_exists_source hchain v (by simp)
        exact (href _ hw).2
      simp only [findCycle]
      apply findSome?_isSome hv
      have hps := findPath_complete nodes.length v v rest hchain (by
        simp only [List.length_append, List.length_cons, List.length_nil] at hlen' ⊢
        omega)
      obtain ⟨p, hp⟩ := Option.isSome_iff_exists.mp hps
      simp [hp]

/-- The reference check of `build` follows from resolving references. -/
theorem planRefsOk_of_refs {nodes : List String} {plan : List (String × String)}
    (href : ∀ e ∈ plan, e.1 ∈ nodes ∧ e.2 ∈ nodes) :
    planRefsOk nodes plan = true := by
  simp only [planRefsOk, List.all_eq_true, Bool.and_eq_true]
  intro e he
  obtain ⟨h1, h2⟩ := href e he
  constructor <;> simpa

/-! ### Helper lemmas: shapes of the node results -/

/-- A normally-returning `add_user_message` yields the input state or the
input state with a serializable value assigned to `"messages"`. -/
theorem add_user_message_shape {s s' : State}
    (h : add_user_message s = some s') :
    s' = s ∨ ∃ v : Val, v.serializable = true ∧ s' = s.set "messages" v := by
  simp only [add_user_message] at h
  split at h
  · split at h
    · injection h with h'
      refine Or.inr ⟨_, ?_, h'.symm⟩
      rfl
    · cases h
  · injection h with h'
    exact Or.inl h'.symm

/-- A normally-returning `generate_response` yields the input state with a
string assigned to `"response"`. -/
theorem generate_response_shape {s s' : State}
    (h : generate_response s = some s') :
    ∃ r : String, s' = s.set "response" (Val.vstr r) := by
  unfold generate_response at h
  split at h
  · obtain ⟨r, hr, hs'⟩ := Option.map_eq_some'.mp h
    exact ⟨r, hs'.symm⟩
  · cases h

/-- A normally-returning `save_response` yields the input state or the input
state with a serializable value assigned to `"messages"`. -/
theorem save_response_shape {store : ConversationStore} {s s' : State}
    {store' : ConversationStore}
    (h : save_response store s = some (s', store')) :
    s' = s ∨ ∃ v : Val, v.serializable = true ∧ s' = s.set "messages" v := by
  simp only [save_response] at h
  split at h
  · split at h
    · split at h
      · simp only [Option.some.injEq, Prod.mk.injEq] at h
        refine Or.inr ⟨_, ?_, h.1.symm⟩
        rfl
      · cases h
    · cases h
  · simp only [Option.some.injEq, Prod.mk.injEq] at h
    exact Or.inl h.1.symm

/-- A chosen response is never the empty string. -/
theorem responseChoice_ne_empty {ms : List (List (String × String))}
    {um r : String} (h : responseChoice ms um = some r) : r ≠ "" := by
  unfold responseChoice at h
  split at h
  · injection h with h'; subst h'; decide
  · split at h
    · injection h with h'; subst h'; decide
    · split at h
      · injection h with h'; subst h'; decide
      · split at h
        · injection h with h'; subst h'; decide
        · simp only [Option.bind_eq_bind, Option.bind_eq_some, Option.pure_def,
            Option.some.injEq] at h
          obtain ⟨last, hlast, c, hc, hr⟩ := h
          subst hr
          apply append_ne_empty
          apply append_ne_empty
          apply append_ne_empty
          apply append_ne_empty
          decide

/-- With the last message and its content available, every branch of the
rule-based choice produces a response. -/
theorem responseChoice_isSome {ms : List (List (String × String))}
    {last : List (String × String)} {c : String} (um : String)
    (hlast : ms.getLast? = some last) (hc : dictGet? last "content" = some c) :
    (responseChoice ms um).isSome := by
  unfold responseChoice
  split
  · rfl
  · split
    · rfl
    · split
      · rfl
      · split
        · rfl
        · simp [Option.bind_eq_bind, hlast, hc]

/-- A response returned by `responseFor` comes from `responseChoice`. -/
theorem responseFor_eq_some {ms : List (List (String × String))} {r : String}
    (h : responseFor ms = some r) :
    ∃ um, responseChoice ms um = some r := by
  unfold responseFor at h
  simp only [Option.bind_eq_bind, Option.bind_eq_some] at h
  obtain ⟨ctx, hctx, h2⟩ := h
  split at h2
  · exact ⟨"", by simpa using h2⟩
  · simp only [Option.bind_eq_some] at h2
    obtain ⟨um, hum, h3⟩ := h2
    exact ⟨um, h3⟩

/-- Any response returned by `responseFor` is non-empty. -/
theorem responseFor_ne_empty {ms : List (List (String × String))} {r : String}
    (h : responseFor ms = some r) : r ≠ "" := by
  obtain ⟨um, hum⟩ := responseFor_eq_some h
  exact responseChoice_ne_empty hum

/-- `responseFor` succeeds on a non-empty history of complete messages. -/
theorem responseFor_isSome {ms : List (List (String × String))}
    (hne : ms ≠ [])
    (hfields : ∀ d ∈ ms,
      (dictGet? d "role").isSome ∧ (dictGet? d "content").isSome) :
    (responseFor ms).isSome := by
  have hempty : ms.isEmpty = false := by
    cases ms with
    | nil => exact absurd rfl hne
    | cons a t => rfl
  obtain ⟨last, hlast, hlast_mem⟩ : ∃ m, ms.getLast? = some m ∧ m ∈ ms :=
    ⟨ms.getLast hne, List.getLast?_eq_getLast_of_ne_nil hne, List.getLast_mem hne⟩
  obtain ⟨c, hc⟩ := Option.isSome_iff_exists.mp (hfields last hlast_mem).2
  have hctx : (mapOpt (fun msg => do
      let r ← dictGet? msg "role"
      let c ← dictGet? msg "content"
      pure (r ++ ": " ++ c)) (lastN 5 ms)).isSome := by
    apply mapOpt_isSome
    intro d hd
    obtain ⟨h1, h2⟩ := hfields d (List.drop_subset _ _ hd)
    obtain ⟨a, ha⟩ := Option.isSome_iff_exists.mp h1
    obtain ⟨b, hb⟩ := Option.isSome_iff_exists.mp h2
    simp [ha, hb]
  obtain ⟨ctx, hctx'⟩ := Option.isSome_iff_exists.mp hctx
  obtain ⟨r, hr⟩ := Option.isSome_iff_exists.mp
    (responseChoice_isSome (strLower c) hlast hc)
  rw [Option.isSome_iff_exists]
  refine ⟨r, ?_⟩
  unfold responseFor
  rw [hctx']
  simp [hempty, hlast, hc, hr]

/-! ## Claim theorems -/

/-- Claim C1: executing the linear 2-node HelloWorld graph — farewell applied
to the result of greet — on the initial state `{}` yields a final state
containing both nodes' written keys: `"greeting"`, equal to
`"Hello, World!"` since no `"name"` key is present, and `"farewell"`. -/
theorem c1_hello_world_final_state :
    ((farewell (greet [])).get? "greeting" = some (Val.vstr "Hello, World!"))
      ∧ ((farewell (greet [])).get? "farewell"
          = some (Val.vstr "Goodbye! Thanks for using DuraGraph.")) := by
  constructor <;> rfl

/-- Claim C4: `ConversationStore` implements an ordered per-thread message
sequence: a freshly-constructed store yields `get_messages t = []`; after any
sequence of `add_message t role content` calls, `get_messages t` returns
exactly the added messages as role/content dicts in insertion order; and
after `clear t`, `get_messages t` returns `[]`. -/
theorem c4_store_ordered_sequence :
    (∀ t : Val, ConversationStore.new.get_messages t = [])
      ∧ (∀ (t : Val) (adds : List (String × String)),
          (ConversationStore.new.addAll t adds).get_messages t
            = adds.map (fun rc => msgDict rc.1 rc.2))
      ∧ (∀ (s : ConversationStore) (t : Val),
          (s.clear t).get_messages t = []) := by
  refine ⟨fun t => rfl, fun t adds => ?_, fun s t => ?_⟩
  · rw [get_messages_addAll]
    rfl
  · show (if t = t then [] else s t) = []
    rw [if_pos rfl]

/-- Claim C5: `ConversationStore` isolates threads: for distinct thread ids,
`add_message` and `clear` on one thread leave the other thread's
`get_messages` result unchanged. -/
theorem c5_store_thread_isolation (s : ConversationStore) (t1 t2 : Val)
    (role content : String) (h : t1 ≠ t2) :
    (s.add_message t1 role content).get_messages t2 = s.get_messages t2
      ∧ (s.clear t1).get_messages t2 = s.get_messages t2 := by
  constructor
  · exact get_messages_add_message_other s role content (Ne.symm h)
  · show (if t2 = t1 then [] else s t2) = s t2
    rw [if_neg (Ne.symm h)]

/-- Witness for C5 at the concrete threads `"thread1"` and `"thread2"`. -/
theorem c5_store_thread_isolation_witness :
    ((ConversationStore.new.add_message (Val.vstr "thread1") "user"
        "Hello").get_messages (Val.vstr "thread2")
      = ConversationStore.new.get_messages (Val.vstr "thread2"))
      ∧ ((ConversationStore.new.clear (Val.vstr "thread1")).get_messages
          (Val.vstr "thread2")
        = ConversationStore.new.get_messages (Val.vstr "thread2")) :=
  c5_store_thread_isolation ConversationStore.new (Val.vstr "thread1")
    (Val.vstr "thread2") "user" "Hello" (by decide)

/-- Claim C6 (engine modelled from the spec): resuming is equivalent to
running from scratch. For a 2-node linear graph whose ledger already holds
the success entry the engine would have written for node 1 (snapshot `s1`
with `n1 init = some s1`), re-invoking `execute` on the same run resumes at
node 2 with the ledger's snapshot and produces exactly the state and ledger
of an uninterrupted from-scratch execution; node 1 is not re-invoked — the
resumed side runs an arbitrary replacement behaviour `n1'` in its place and
the result does not depend on it. -/
theorem c6_idempotent_resume (nm1 nm2 : String) (n1 n1' n2 : NodeFn)
    (init s1 : State) (h1 : n1 init = some s1) :
    execute [(nm1, n1'), (nm2, n2)] [⟨nm1, 0, s1, Outcome.success⟩] init
      = execute [(nm1, n1), (nm2, n2)] [] init := by
  simp [execute, latest_success, execFrom, h1]

/-- Witness for C6: the HelloWorld nodes, with the resumed side running a
failing node in place of `greet` — the results still agree. -/
theorem c6_idempotent_resume_witness :
    execute [("greet", fun _ => none), ("farewell", fun s => some (farewell s))]
        [⟨"greet", 0, greet [], Outcome.success⟩] []
      = execute [("greet", fun s => some (greet s)),
          ("farewell", fun s => some (farewell s))] [] [] :=
  c6_idempotent_resume "greet" "farewell" (fun s => some (greet s))
    (fun _ => none) (fun s => some (farewell s)) [] (greet []) rfl

/-- Claim C7 (graph construction modelled from the spec): `build` rejects
cycles — for every graph input whose plan contains a cycle (with plan
references resolving among the duplicate-free declared nodes, so that the
earlier validation steps of `build` do not fire first), `build` fails with
`CycleError` naming an offending cycle and returns no `Graph` value. -/
theorem c7_build_rejects_cyclic_plans (name : String) (nodes : List String)
    (plan : List (String × String))
    (href : ∀ e ∈ plan, e.1 ∈ nodes ∧ e.2 ∈ nodes)
    (hnd : nodes.Nodup) (hcyc : HasCycle plan) :
    ∃ c, build name nodes plan = Except.error (BuildError.cycleError c)
      ∧ IsCycle plan c := by
  have hrefs := planRefsOk_of_refs href
  obtain ⟨c, hc⟩ := Option.isSome_iff_exists.mp (findCycle_isSome href hnd hcyc)
  refine ⟨c, ?_, findCycle_sound hc⟩
  simp [build, hrefs, hnd, hc]

/-- Witness for C7 at the concrete two-node cyclic plan `a → b → a`. -/
theorem c7_build_rejects_cyclic_plans_witness :
    ∃ c, build "g" ["a", "b"] [("a", "b"), ("b", "a")]
        = Except.error (BuildError.cycleError c)
      ∧ IsCycle [("a", "b"), ("b", "a")] c :=
  c7_build_rejects_cyclic_plans "g" ["a", "b"] [("a", "b"), ("b", "a")]
    (by decide) (by decide)
    ⟨["a", "b"],
      List.Chain.cons (by decide) (List.Chain.cons (by decide) List.Chain.nil)⟩

/-- Claim C2: for every example node (greet, farewell, load_history,
add_user_message, generate_response, save_response) and every input state
on which the node returns normally, every key present in the input state is
present in the returned state — the key set grows monotonically and no node
silently drops a previously-present key. -/
theorem c2_nodes_preserve_keys :
    (∀ (s : State) (k : String), (s.get? k).isSome = true →
        ((greet s).get? k).isSome = true)
      ∧ (∀ (s : State) (k : String), (s.get? k).isSome = true →
          ((farewell s).get? k).isSome = true)
      ∧ (∀ (store : ConversationStore) (s : State) (k : String),
          (s.get? k).isSome = true →
          ((load_history store s).get? k).isSome = true)
      ∧ (∀ (s s' : State) (k : String), add_user_message s = some s' →
          (s.get? k).isSome = true → (s'.get? k).isSome = true)
      ∧ (∀ (s s' : State) (k : String), generate_response s = some s' →
          (s.get? k).isSome = true → (s'.get? k).isSome = true)
      ∧ (∀ (store store' : ConversationStore) (s s' : State) (k : String),
          save_response store s = some (s', store') →
          (s.get? k).isSome = true → (s'.get? k).isSome = true) := by
  refine ⟨?_, ?_, ?_, ?_, ?_, ?_⟩
  · intro s k hk
    exact isSome_get?_set _ _ hk
  · intro s k hk
    exact isSome_get?_set _ _ hk
  · intro store s k hk
    exact isSome_get?_set _ _ hk
  · intro s s' k h hk
    rcases add_user_message_shape h with rfl | ⟨v, _, rfl⟩
    · exact hk
    · exact isSome_get?_set _ _ hk
  · intro s s' k h hk
    obtain ⟨r, rfl⟩ := generate_response_shape h
    exact isSome_get?_set _ _ hk
  · intro store store' s s' k h hk
    rcases save_response_shape h with rfl | ⟨v, _, rfl⟩
    · exact hk
    · exact isSome_get?_set _ _ hk

/-- Witness for C2: each node applied at a concrete state on which it
returns normally, with a concrete previously-present key still present. -/
theorem c2_nodes_preserve_keys_witness :
    (State.get? (greet [("name", Val.vstr "Ada")]) "name").isSome = true
      ∧ (State.get? (farewell [("greeting", Val.vstr "hi")])
          "greeting").isSome = true
      ∧ (State.get? (load_history ConversationStore.new
          [("thread_id", Val.vstr "t")]) "thread_id").isSome = true
      ∧ (State.get? [("input", Val.vstr "Hi"), ("messages",
          Val.vmsgs [[("role", "user"), ("content", "Hi")]])]
            "input").isSome = true
      ∧ (State.get? [("messages", Val.vmsgs [[("role", "user"),
          ("content", "Hi")]]), ("response",
          Val.vstr "Hello! How can I help you today?")]
            "messages").isSome = true
      ∧ (State.get? [("response", Val.vstr "ok"), ("messages",
          Val.vmsgs [[("role", "assistant"), ("content", "ok")]])]
            "response").isSome = true :=
  ⟨c2_nodes_preserve_keys.1 _ "name" (by decide),
    c2_nodes_preserve_keys.2.1 _ "greeting" (by decide),
    c2_nodes_preserve_keys.2.2.1 ConversationStore.new _ "thread_id" (by decide),
    c2_nodes_preserve_keys.2.2.2.1
      [("input", Val.vstr "Hi"), ("messages", Val.vmsgs [])]
      [("input", Val.vstr "Hi"), ("messages",
        Val.vmsgs [[("role", "user"), ("content", "Hi")]])]
      "input" rfl (by decide),
    c2_nodes_preserve_keys.2.2.2.2.1
      [("messages", Val.vmsgs [[("role", "user"), ("content", "Hi")]])]
      [("messages", Val.vmsgs [[("role", "user"), ("content", "Hi")]]),
        ("response", Val.vstr "Hello! How can I help you today?")]
      "messages" rfl (by decide),
    c2_nodes_preserve_keys.2.2.2.2.2 ConversationStore.new
      ((ConversationStore.new.add_message (Val.vstr "default") "user"
        "").add_message (Val.vstr "default") "assistant" "ok")
      [("response", Val.vstr "ok"), ("messages", Val.vmsgs [])]
      [("response", Val.vstr "ok"), ("messages",
        Val.vmsgs [[("role", "assistant"), ("content", "ok")]])]
      "response" rfl (by decide)⟩

/-- Claim C3: for every example node, if the input state is serializable (no
value outside the JSON-like fragment of strings and role/content string-dict
lists) and the node returns normally, the returned state is serializable —
each node only adds string values or message-dict lists. -/
theorem c3_nodes_preserve_serializability :
    (∀ s : State, serializableState s = true →
        serializableState (greet s) = true)
      ∧ (∀ s : State, serializableState s = true →
          serializableState (farewell s) = true)
      ∧ (∀ (store : ConversationStore) (s : State), serializableState s = true →
          serializableState (load_history store s) = true)
      ∧ (∀ s s' : State, add_user_message s = some s' →
          serializableState s = true → serializableState s' = true)
      ∧ (∀ s s' : State, generate_response s = some s' →
          serializableState s = true → serializableState s' = true)
      ∧ (∀ (store store' : ConversationStore) (s s' : State),
          save_response store s = some (s', store') →
          serializableState s = true → serializableState s' = true) := by
  refine ⟨?_, ?_, ?_, ?_, ?_, ?_⟩
  · intro s hs
    exact serializableState_set hs rfl
  · intro s hs
    exact serializableState_set hs rfl
  · intro store s hs
    exact serializableState_set hs rfl
  · intro s s' h hs
    rcases add_user_message_shape h with rfl | ⟨v, hv, rfl⟩
    · exact hs
    · exact serializableState_set hs hv
  · intro s s' h hs
    obtain ⟨r, rfl⟩ := generate_response_shape h
    exact serializableState_set hs rfl
  · intro store store' s s' h hs
    rcases save_response_shape h with rfl | ⟨v, hv, rfl⟩
    · exact hs
    · exact serializableState_set hs hv

/-- Witness for C3: each node applied at a concrete serializable state on
which it returns normally, with the result still serializable. -/
theorem c3_nodes_preserve_serializability_witness :
    serializableState (greet [("name", Val.vstr "Ada")]) = true
      ∧ serializableState (farewell []) = true
      ∧ serializableState (load_history ConversationStore.new
          [("thread_id", Val.vstr "t")]) = true
      ∧ serializableState ([("input", Val.vstr "Hi"), ("messages",
          Val.vmsgs [[("role", "user"), ("content", "Hi")]])] : State) = true
      ∧ serializableState ([("messages",
          Val.vmsgs [[("role", "user"), ("content", "Hi")]]),
          ("response", Val.vstr "Hello! How can I help you today?")] : State)
            = true
      ∧ serializableState ([("response", Val.vstr "ok"), ("messages",
          Val.vmsgs [[("role", "assistant"), ("content", "ok")]])] : State)
            = true :=
  ⟨c3_nodes_preserve_serializability.1 _ (by decide),
    c3_nodes_preserve_serializability.2.1 _ (by decide),
    c3_nodes_preserve_serializability.2.2.1 ConversationStore.new _ (by decide),
    c3_nodes_preserve_serializability.2.2.2.1
      [("input", Val.vstr "Hi"), ("messages", Val.vmsgs [])]
      [("input", Val.vstr "Hi"), ("messages",
        Val.vmsgs [[("role", "user"), ("content", "Hi")]])]
      rfl (by decide),
    c3_nodes_preserve_serializability.2.2.2.2.1
      [("messages", Val.vmsgs [[("role", "user"), ("content", "Hi")]])]
      [("messages", Val.vmsgs [[("role", "user"), ("content", "Hi")]]),
        ("response", Val.vstr "Hello! How can I help you today?")]
      rfl (by decide),
    c3_nodes_preserve_serializability.2.2.2.2.2 ConversationStore.new
      ((ConversationStore.new.add_message (Val.vstr "default") "user"
        "").add_message (Val.vstr "default") "assistant" "ok")
      [("response", Val.vstr "ok"), ("messages", Val.vmsgs [])]
      [("response", Val.vstr "ok"), ("messages",
        Val.vmsgs [[("role", "assistant"), ("content", "ok")]])]
      rfl (by decide)⟩

/-- Claim C9: for every state whose `"input"` key is absent or maps to the
empty string, `add_user_message` returns the state unchanged — nothing is
appended to `state["messages"]`; the conversation store is untouched, as
reflected by the embedding, where this node does not receive the store at
all (the source never references it in this node). -/
theorem c9_add_user_message_empty_input (s : State)
    (h : s.get? "input" = none ∨ s.get? "input" = some (Val.vstr "")) :
    add_user_message s = some s := by
  have hv : s.getD "input" (Val.vstr "") = Val.vstr "" := by
    rcases h with h | h <;> simp [State.getD, h]
  simp [add_user_message, hv, Val.truthy]

/-- Witness for C9 at a concrete state without an `"input"` key. -/
theorem c9_add_user_message_empty_input_witness :
    add_user_message [("thread_id", Val.vstr "t")]
      = some [("thread_id", Val.vstr "t")] :=
  c9_add_user_message_empty_input _ (Or.inl (by decide))

/-- Counterexample to claim C8 as stated: a state whose `"messages"` value is
a non-empty list of dicts each having a string `"content"` field, on which
`generate_response` nevertheless raises (returns `none`) rather than
returning a state with a response — building the `context` string evaluates
`msg["role"]`, which is absent here, so the claim's hypothesis (a `"content"`
field alone) is not sufficient for normal return. -/
theorem c8_counterexample :
    generate_response [("messages", Val.vmsgs [[("content", "hello")]])]
      = none := rfl

/-- Claim C8 (amended): `generate_response` is total only for non-empty
histories of complete message dicts — the amendment adds the `"role"` field
requirement the counterexample shows necessary (the `context` comprehension
evaluates `msg["role"]` as well as `msg["content"]`). For every state whose
`"messages"` value is a non-empty list of dicts each having string `"role"`
and `"content"` fields, the node returns the state with `"response"` set to
a non-empty string; for every state whose `"messages"` value is absent or
the empty list, the call raises (`none`) instead of returning a state,
because the fallback branch indexes `messages[-1]` after the empty-list
guard has set `user_message` to the empty string. -/
theorem c8_generate_response_totality :
    (∀ s : State, s.get? "messages" = none → generate_response s = none)
      ∧ (∀ s : State, s.get? "messages" = some (Val.vmsgs []) →
          generate_response s = none)
      ∧ (∀ (s : State) (ms : List (List (String × String))),
          s.get? "messages" = some (Val.vmsgs ms) → ms ≠ [] →
          (∀ d ∈ ms, (dictGet? d "role").isSome = true
            ∧ (dictGet? d "content").isSome = true) →
          ∃ r : String,
            generate_response s = some (s.set "response" (Val.vstr r))
              ∧ r ≠ "") := by
  have hnone : responseFor [] = none := rfl
  refine ⟨?_, ?_, ?_⟩
  · intro s h
    have hD : s.getD "messages" (Val.vmsgs []) = Val.vmsgs [] := by
      simp [State.getD, h]
    simp [generate_response, hD, hnone]
  · intro s h
    have hD : s.getD "messages" (Val.vmsgs []) = Val.vmsgs [] := by
      simp [State.getD, h]
    simp [generate_response, hD, hnone]
  · intro s ms h hne hfields
    have hD : s.getD "messages" (Val.vmsgs []) = Val.vmsgs ms := by
      simp [State.getD, h]
    obtain ⟨r, hr⟩ :=
      Option.isSome_iff_exists.mp (responseFor_isSome hne hfields)
    refine ⟨r, ?_, responseFor_ne_empty hr⟩
    simp [generate_response, hD, hr]

/-- Witness for C8 (amended) at concrete states: no `"messages"` key, the
empty history, and a one-message complete history. -/
theorem c8_generate_response_totality_witness :
    generate_response [("thread_id", Val.vstr "t")] = none
      ∧ generate_response [("messages", Val.vmsgs [])] = none
      ∧ ∃ r : String,
          generate_response
              [("messages", Val.vmsgs [[("role", "user"), ("content", "Hello")]])]
            = some (State.set
                [("messages", Val.vmsgs [[("role", "user"), ("content", "Hello")]])]
                "response" (Val.vstr r))
              ∧ r ≠ "" :=
  ⟨c8_generate_response_totality.1 _ (by decide),
    c8_generate_response_totality.2.1 _ (by decide),
    c8_generate_response_totality.2.2 _
      [[("role", "user"), ("content", "Hello")]]
      (by decide) (by decide) (by decide)⟩

/-- Counterexample to claim C10 as stated: a state whose `"response"` value
is a non-empty string but which has no `"messages"` key. `save_response`
raises (`KeyError` on `state["messages"].append`, `none` here) instead of
returning a state with the appended message, and nothing reaches the store. -/
theorem c10_counterexample :
    save_response ConversationStore.new
      [("response", Val.vstr "Test response")] = none := rfl

/-- Claim C10 (amended): the amendment adds, for the appending half, the
requirement that `"messages"` holds a message list — the counterexample
shows `save_response` raises without it. For every state whose `"response"`
value is a non-empty string and whose `"messages"` key holds a message list
(with `"response"` and the optional `"input"` strings, the shapes the
sources' annotations give them), `save_response` appends the assistant dict
to `state["messages"]` and appends exactly two entries to the store under
the state's thread id (defaulting to `"default"`): first the user entry with
content `state.get("input", "")` — even when that field is empty or absent —
then the assistant entry with the response. For every state whose
`"response"` is absent or empty, both the state and the store are left
unchanged. -/
theorem c10_save_response :
    (∀ (store : ConversationStore) (s : State) (r : String)
        (ms : List (List (String × String))) (i : String),
        s.get? "response" = some (Val.vstr r) → r ≠ "" →
        s.get? "messages" = some (Val.vmsgs ms) →
        (s.get? "input" = none ∧ i = "") ∨ s.get? "input" = some (Val.vstr i) →
        save_response store s
            = some (s.set "messages" (Val.vmsgs (ms ++ [msgDict "assistant" r])),
                (store.add_message (s.getD "thread_id" (Val.vstr "default"))
                  "user" i).add_message
                  (s.getD "thread_id" (Val.vstr "default")) "assistant" r)
          ∧ ((store.add_message (s.getD "thread_id" (Val.vstr "default"))
                "user" i).add_message
                (s.getD "thread_id" (Val.vstr "default")) "assistant"
                r).get_messages (s.getD "thread_id" (Val.vstr "default"))
            = store.get_messages (s.getD "thread_id" (Val.vstr "default"))
                ++ [msgDict "user" i, msgDict "assistant" r])
      ∧ (∀ (store : ConversationStore) (s : State),
          s.get? "response" = none ∨ s.get? "response" = some (Val.vstr "") →
          save_response store s = some (s, store)) := by
  constructor
  · intro store s r ms i hresp hr hmsgs hinput
    have hrespD : s.getD "response" (Val.vstr "") = Val.vstr r := by
      simp [State.getD, hresp]
    have hinputD : s.getD "input" (Val.vstr "") = Val.vstr i := by
      rcases hinput with ⟨h1, rfl⟩ | h1 <;> simp [State.getD, h1]
    constructor
    · simp [save_response, hrespD, hmsgs, hinputD, Val.asString, Val.truthy, hr]
    · rw [get_messages_add_message_same, get_messages_add_message_same]
      simp
  · intro store s h
    have hrespD : s.getD "response" (Val.vstr "") = Val.vstr "" := by
      rcases h with h | h <;> simp [State.getD, h]
    simp [save_response, hrespD, Val.truthy]

/-- Witness for C10 (amended): one state with a non-empty response, an empty
message list and no input key (so the stored user content is `""`), and one
state without a `"response"` key, left unchanged. -/
theorem c10_save_response_witness :
    (save_response ConversationStore.new
        [("response", Val.vstr "Yo"), ("messages", Val.vmsgs [])]).isSome = true
      ∧ save_response ConversationStore.new [("thread_id", Val.vstr "t")]
          = some ([("thread_id", Val.vstr "t")], ConversationStore.new) := by
  constructor
  · rw [(c10_save_response.1 ConversationStore.new
      [("response", Val.vstr "Yo"), ("messages", Val.vmsgs [])] "Yo" [] ""
      (by decide) (by decide) (by decide) (Or.inl ⟨by decide, rfl⟩)).1]
    rfl
  · exact c10_save_response.2 ConversationStore.new _ (Or.inl (by decide))

end Duragraph
